import Mathlib

/-!
Verification development for the Telegram content-saver bot
(`bot.py`, `main.py`).  The definitions below are a shallow embedding of
the bot's link parser, its three-strategy content-transfer engine, the
batch loop with cooperative cancellation, the error classifier and the
user-directory ban check.  Machine strings are modelled over `List Char`
(ASCII fragment), the per-user cancel-flag store as a function
`Nat → Option Bool`, and the asynchronous environment (message fetches,
send/copy/forward outcomes, the moments at which a `/cancel` request or
an exception becomes visible) as explicit oracle parameters.
-/

/- ==================== LINK PARSER (bot.py, parse_telegram_link) ==================== -/

/-- Whitespace characters removed by Python's `str.strip()` (ASCII fragment). -/
def isWS (c : Char) : Bool :=
  c == ' ' || c == '\t' || c == '\n' || c == '\r' || c == '\x0b' || c == '\x0c'

/-- Python `link.strip()`: drop leading and trailing whitespace. -/
def pyStrip (l : List Char) : List Char :=
  (((l.dropWhile isWS).reverse).dropWhile isWS).reverse

/-- Python `link.replace(" ", "")`: remove every space character (only U+0020). -/
def eraseSpaces (l : List Char) : List Char :=
  l.filter (· != ' ')

/-- Value of a decimal digit string, as Python `int` on the captured group. -/
def digitsToNat (l : List Char) : Nat :=
  l.foldl (fun n c => 10 * n + (c.toNat - '0'.toNat)) 0

/-- The parsed representation of a message link (`bot.py` returns a dict with
`type="public"`, `channel`, `topic_id=None`, `message_id_start`, `message_id_end`). -/
structure Locator where
  channel : String
  topicId : Option Nat
  msgStart : Nat
  msgEnd : Nat
deriving DecidableEq, Repr

/-- The regex fragment `https?://`: `http`, an optional `s`, then `://`. -/
def parseScheme : List Char → Option (List Char)
  | 'h' :: 't' :: 't' :: 'p' :: 's' :: ':' :: '/' :: '/' :: rest => some rest
  | 'h' :: 't' :: 't' :: 'p' :: ':' :: '/' :: '/' :: rest => some rest
  | _ => none

/-- The host fragment `t\.me/` of both patterns in `bot.py` (the only host
the patterns mention). -/
def parseHost : List Char → Option (List Char)
  | 't' :: '.' :: 'm' :: 'e' :: '/' :: rest => some rest
  | _ => none

/-- The capture `([^/]+)/`: a non-empty run of non-`/` characters followed by
`/`.  Since `[^/]` cannot match `/`, the regex capture is exactly the maximal
run up to the first `/`; backtracking to a shorter prefix always faces a
non-`/` character where the pattern requires `/`, so this rendering is
equivalent to the regex. -/
def splitChannel (l : List Char) : Option (List Char × List Char) :=
  match l.dropWhile (· != '/') with
  | '/' :: rest =>
    if (l.takeWhile (· != '/')).isEmpty then none
    else some (l.takeWhile (· != '/'), rest)
  | _ => none

/-- The tail `(\d+)-(\d+)$` of the `public_batch` pattern.  Greedy `\d+`
equals the maximal digit run: any shorter split leaves a digit where the
pattern requires `-` or end of string, so backtracking never helps. -/
def parseBatchTail (l : List Char) : Option (Nat × Nat) :=
  let d1 := l.takeWhile Char.isDigit
  let r1 := l.dropWhile Char.isDigit
  if d1.isEmpty then none
  else
    match r1 with
    | '-' :: r2 =>
      let d2 := r2.takeWhile Char.isDigit
      let r3 := r2.dropWhile Char.isDigit
      if d2.isEmpty then none
      else if r3.isEmpty then some (digitsToNat d1, digitsToNat d2) else none
    | _ => none

/-- The tail `(\d+)$` of the `public` pattern. -/
def parseSingleTail (l : List Char) : Option Nat :=
  let d := l.takeWhile Char.isDigit
  if d.isEmpty then none
  else if (l.dropWhile Char.isDigit).isEmpty then some (digitsToNat d) else none

/-- The ordered pattern list of `bot.py`'s `parse_telegram_link`: the
`public_batch` pattern `https?://t\.me/([^/]+)/(\d+)-(\d+)$` is tried first,
then the `public` pattern `https?://t\.me/([^/]+)/(\d+)$`.  Both patterns
share the deterministic prefix `https?://t\.me/([^/]+)/`, so trying the two
anchored regexes in order is equivalent to parsing that prefix once and then
trying the batch tail before the single tail. -/
def matchPatterns (l : List Char) : Option Locator :=
  match parseScheme l with
  | none => none
  | some r1 =>
    match parseHost r1 with
    | none => none
    | some r2 =>
      match splitChannel r2 with
      | none => none
      | some (ch, tail) =>
        match parseBatchTail tail with
        | some (x, y) =>
          some { channel := String.mk ch, topicId := none, msgStart := x, msgEnd := y }
        | none =>
          match parseSingleTail tail with
          | some n =>
            some { channel := String.mk ch, topicId := none, msgStart := n, msgEnd := n }
          | none => none

/-- `bot.py` `parse_telegram_link`: `link.strip().replace(" ", "")`, then the
anchored patterns (after `strip`, a Python `$` anchor coincides with end of
string, since any trailing newline has been removed). -/
def parseTelegramLink (s : String) : Option Locator :=
  matchPatterns (eraseSpaces (pyStrip s.data))

/-- `s₂` is `s₁` with extra space characters (U+0020) inserted at arbitrary
positions. -/
inductive Spaced : List Char → List Char → Prop
  | nil : Spaced [] []
  | cons (c : Char) {a b : List Char} : Spaced a b → Spaced (c :: a) (c :: b)
  | space {a b : List Char} : Spaced a b → Spaced a (' ' :: b)

lemma Spaced.append_right {a b : List Char} (h : Spaced a b) (c : Char) :
    Spaced (a ++ [c]) (b ++ [c]) := by
  induction h with
  | nil => exact Spaced.cons c Spaced.nil
  | cons d _ ih => exact Spaced.cons d ih
  | space _ ih => exact Spaced.space ih

lemma Spaced.space_right {a b : List Char} (h : Spaced a b) :
    Spaced a (b ++ [' ']) := by
  induction h with
  | nil => exact Spaced.space Spaced.nil
  | cons d _ ih => exact Spaced.cons d ih
  | space _ ih => exact Spaced.space ih

lemma Spaced.rev {a b : List Char} (h : Spaced a b) :
    Spaced a.reverse b.reverse := by
  induction h with
  | nil => exact Spaced.nil
  | cons d h ih =>
    simpa [List.reverse_cons] using ih.append_right d
  | space h ih =>
    simpa [List.reverse_cons] using ih.space_right

lemma Spaced.dropWS {a b : List Char} (h : Spaced a b) :
    Spaced (a.dropWhile isWS) (b.dropWhile isWS) := by
  induction h with
  | nil => exact Spaced.nil
  | cons d h ih =>
    by_cases hd : isWS d = true
    · simpa [List.dropWhile_cons, hd] using ih
    · simpa [List.dropWhile_cons, hd] using Spaced.cons d h
  | space h ih =>
    have hsp : isWS ' ' = true := by decide
    simpa [List.dropWhile_cons, hsp] using ih

lemma Spaced.erase {a b : List Char} (h : Spaced a b) :
    eraseSpaces a = eraseSpaces b := by
  induction h with
  | nil => rfl
  | cons d h ih =>
    by_cases hd : (d != ' ') = true
    · simp [eraseSpaces, List.filter_cons, hd] at ih ⊢
      exact ih
    · simp [eraseSpaces, List.filter_cons, hd] at ih ⊢
      exact ih
  | space h ih =>
    simpa [eraseSpaces, List.filter_cons] using ih

lemma Spaced.strip {a b : List Char} (h : Spaced a b) :
    Spaced (pyStrip a) (pyStrip b) :=
  ((h.dropWS).rev.dropWS).rev

/-- C8 (amended): the parser's result is invariant under inserting space
characters (U+0020): it strips spaces from the trimmed string before
matching, so a range link written with spaces such as `101 - 120` parses to
the same Locator as the unspaced form.  (Invariance does not extend to other
whitespace characters; see the counterexample.) -/
theorem space_insensitive_parse (s₁ s₂ : String) (h : Spaced s₁.data s₂.data) :
    parseTelegramLink s₂ = parseTelegramLink s₁ := by
  unfold parseTelegramLink
  rw [h.strip.erase]

/-- C8 witness: the spec's own example, `"101 - 120"` versus `"101-120"`. -/
theorem space_insensitive_parse_witness :
    parseTelegramLink "https://t.me/ch/101 - 120" = parseTelegramLink "https://t.me/ch/101-120" ∧
    parseTelegramLink "https://t.me/ch/101-120" =
      some { channel := "ch", topicId := none, msgStart := 101, msgEnd := 120 } := by
  refine ⟨space_insensitive_parse _ _ ?_, by decide⟩
  show Spaced "https://t.me/ch/101-120".data "https://t.me/ch/101 - 120".data
  repeat
    first
    | exact Spaced.nil
    | refine Spaced.cons _ ?_
    | refine Spaced.space ?_

/-- C8 counterexample: the code removes only space characters
(`link.replace(" ", "")`), not all whitespace; inserting an internal tab
changes the parse result from success to rejection, so the parser is not
invariant under inserting internal whitespace. -/
theorem whitespace_parse_counterexample :
    parseTelegramLink "https://t.me/ch/101\t-120" = none ∧
    parseTelegramLink "https://t.me/ch/101-120" =
      some { channel := "ch", topicId := none, msgStart := 101, msgEnd := 120 } ∧
    parseTelegramLink "https://t.me/ch/101\t-120" ≠ parseTelegramLink "https://t.me/ch/101-120" := by
  refine ⟨by decide, by decide, by decide⟩

/-- C7 (amended): the parser's fixed patterns name only the host `t.me`; a
link on the alias host `telegram.me` never parses (for either scheme), even
though the handler's pre-filter regex `https?://(t\.me|telegram\.me)/\S+`
extracts such links and hands them to the parser.  The same path does parse
on `t.me`. -/
theorem host_alias_rejected (tail : List Char) :
    matchPatterns ("https://telegram.me/".data ++ tail) = none ∧
    matchPatterns ("http://telegram.me/".data ++ tail) = none ∧
    parseTelegramLink "https://t.me/demo/5-7" =
      some { channel := "demo", topicId := none, msgStart := 5, msgEnd := 7 } := by
  refine ⟨rfl, rfl, by decide⟩

/-- C7 counterexample: the very same path `demo/5` parses on `t.me` but is
rejected on `telegram.me`. -/
theorem host_alias_counterexample :
    parseTelegramLink "https://t.me/demo/5" =
      some { channel := "demo", topicId := none, msgStart := 5, msgEnd := 5 } ∧
    parseTelegramLink "https://telegram.me/demo/5" = none := by
  refine ⟨by decide, by decide⟩

/- ==================== CONTENT TRANSFER ENGINE ==================== -/

/-- The attributes of a fetched message that the engine inspects, mirroring
the Pyrogram attribute checks (`original_msg.text`, `.caption`, `.photo`, …,
`.poll`, `.media`): each field records whether the attribute is truthy.  The
fields are kept independent, exactly as the Python truthiness tests are. -/
structure Msg where
  text : Bool
  caption : Bool
  photo : Bool
  video : Bool
  document : Bool
  audio : Bool
  voice : Bool
  sticker : Bool
  animation : Bool
  poll : Bool
  media : Bool
deriving DecidableEq, Repr

/-- What a successful transfer hands back: the original message object
(manual path), or the message returned by the platform `copy_message` /
`forward_messages` call (tagged by an opaque token). -/
inductive Delivered
  | original
  | copied (t : Nat)
  | forwarded (t : Nat)
deriving DecidableEq, Repr

/-- The messaging-client environment for one transfer: the outcome of the
fetch (`get_messages` may raise, return nothing, or return a message) and the
outcomes the platform would give to the type-directed send call, the
`copy_message` call and the `forward_messages` call. -/
structure TransferEnv where
  fetch : Except String (Option Msg)
  manualSend : Except String Unit
  copyResult : Except String Nat
  forwardResult : Except String Nat
deriving Repr

/-- `bot.py` `send_message_by_type`: polls are refused outright with a fixed
diagnostic; for each recognized content type the matching send call is
issued (all the type branches treat the client outcome identically, so they
share the one `manualSend` oracle); anything else is "Unsupported message
type" without any client call. -/
def sendMessageByType (m : Msg) (sendRes : Except String Unit) : Bool × Option String :=
  if m.poll then
    (false, some "Polls cannot be manually recreated by bots (API limitation)")
  else if m.text || m.photo || m.video || m.document || m.audio || m.voice
      || m.sticker || m.animation then
    match sendRes with
    | .ok _ => (true, none)
    | .error e => (false, some e)
  else (false, some "Unsupported message type")

/-- Transfer strategies in the engine's vocabulary. -/
inductive Strategy
  | manual
  | copy
  | forward
deriving DecidableEq, Repr

/-- `bot.py` `copy_message_with_fallback`, instrumented with the list of
strategies the control flow enters (in order): fetch, emptiness check, then
manual reconstruction (skipped entirely when the message is a poll), then
`copy_message`, then `forward_messages`; the error of the forward attempt is
the one returned when everything fails. -/
def copyMessageWithFallback (env : TransferEnv) :
    Option Delivered × Option String × List Strategy :=
  match env.fetch with
  | .error e => (none, some e, [])
  | .ok none => (none, some "Message not found", [])
  | .ok (some m) =>
    if !m.text && !m.caption && !m.media && !m.poll then
      (none, some "Message is empty", [])
    else
      let att0 : List Strategy := if !m.poll then [Strategy.manual] else []
      if (!m.poll) && (sendMessageByType m env.manualSend).1 then
        (some Delivered.original, none, att0)
      else
        match env.copyResult with
        | .ok t => (some (Delivered.copied t), none, att0 ++ [Strategy.copy])
        | .error _ =>
          match env.forwardResult with
          | .ok t => (some (Delivered.forwarded t), none, att0 ++ [Strategy.copy, Strategy.forward])
          | .error fe => (none, some fe, att0 ++ [Strategy.copy, Strategy.forward])

/-- `main.py` `send_message_copy`: same type dispatch but with no poll
branch at all. -/
def sendMessageCopy (m : Msg) (sendRes : Except String Unit) : Bool × Option String :=
  if m.text || m.photo || m.video || m.document || m.audio || m.voice
      || m.sticker || m.animation then
    match sendRes with
    | .ok _ => (true, none)
    | .error e => (false, some e)
  else (false, some "Unsupported message type")

/-- `main.py` `copy_message_with_media`: same fetch / emptiness / manual /
copy / forward cascade, except that the emptiness check ignores polls and —
crucially — when the forward also fails the function returns
`str(copy_error)`, the diagnostic of the copy step, not the forward error. -/
def copyMessageWithMedia (env : TransferEnv) : Option Delivered × Option String :=
  match env.fetch with
  | .error e => (none, some e)
  | .ok none => (none, some "Message not found")
  | .ok (some m) =>
    if !m.text && !m.caption && !m.media then
      (none, some "Message is empty")
    else if (sendMessageCopy m env.manualSend).1 then
      (some Delivered.original, none)
    else
      match env.copyResult with
      | .ok t => (some (Delivered.copied t), none)
      | .error ce =>
        match env.forwardResult with
        | .ok t => (some (Delivered.forwarded t), none)
        | .error _ => (none, some ce)

/-- Modelled from the spec: the strategy order the spec prescribes —
manual type-directed reconstruction, then platform copy, then forward, with
the manual step skipped entirely for polls. -/
def stratOrder (m : Msg) : List Strategy :=
  if m.poll then [Strategy.copy, Strategy.forward]
  else [Strategy.manual, Strategy.copy, Strategy.forward]

def isOkE {α : Type} : Except String α → Bool
  | .ok _ => true
  | .error _ => false

/-- Modelled from the spec: whether a given strategy, if attempted in
environment `env` on message `m`, succeeds. -/
def stratSucceeds (env : TransferEnv) (m : Msg) : Strategy → Bool
  | Strategy.manual => (sendMessageByType m env.manualSend).1
  | Strategy.copy => isOkE env.copyResult
  | Strategy.forward => isOkE env.forwardResult

/-- Take elements up to and including the first one satisfying `p`. -/
def takeThroughFirst {α : Type} (p : α → Bool) : List α → List α
  | [] => []
  | x :: xs => if p x then [x] else x :: takeThroughFirst p xs

/-- Modelled from the spec: the strategies a conforming engine attempts —
the spec order, cut off at (and including) the first success. -/
def specAttempts (env : TransferEnv) (m : Msg) : List Strategy :=
  takeThroughFirst (stratSucceeds env m) (stratOrder m)

/-- Modelled from the spec: the delivery produced by the first successful
strategy, if any. -/
def specResult (env : TransferEnv) (m : Msg) : Option Delivered :=
  match (stratOrder m).find? (stratSucceeds env m) with
  | some Strategy.manual => some Delivered.original
  | some Strategy.copy =>
    match env.copyResult with
    | .ok t => some (Delivered.copied t)
    | .error _ => none
  | some Strategy.forward =>
    match env.forwardResult with
    | .ok t => some (Delivered.forwarded t)
    | .error _ => none
  | none => none

/-- Modelled from the spec: the surfaced diagnostic — none on success,
otherwise the diagnostic of the last strategy (the forward attempt). -/
def specError (env : TransferEnv) (m : Msg) : Option String :=
  if (stratOrder m).any (stratSucceeds env m) then none
  else
    match env.forwardResult with
    | .ok _ => none
    | .error e => some e

/-- C2: for every fetched, non-empty message, `copy_message_with_fallback`
tries the strategies in the strict order manual, copy, forward, returning at
the first success and attempting a later strategy only when every earlier
one failed; for poll messages the manual step is skipped entirely and the
engine goes directly to the platform copy.  Stated as agreement with the
spec-worded strategy driver. -/
theorem transfer_strategy_order (env : TransferEnv) (m : Msg)
    (hf : env.fetch = .ok (some m))
    (hne : (m.text || m.caption || m.media || m.poll) = true) :
    copyMessageWithFallback env = (specResult env m, specError env m, specAttempts env m) := by
  have hempB : (!m.text && !m.caption && !m.media && !m.poll) = false := by
    revert hne
    cases m.text <;> cases m.caption <;> cases m.media <;> cases m.poll <;> simp
  cases hp : m.poll with
  | true =>
    simp only [copyMessageWithFallback, hf]
    rw [hempB]
    rcases hc : env.copyResult with ce | ct <;>
      rcases hfw : env.forwardResult with fe | ft <;>
        simp [hp, hc, hfw, specResult, specError,
          specAttempts, stratOrder, stratSucceeds, takeThroughFirst, isOkE, List.find?]
  | false =>
    rcases hms : sendMessageByType m env.manualSend with ⟨mb, merr⟩
    simp only [copyMessageWithFallback, hf]
    rw [hempB]
    cases mb <;>
      rcases hc : env.copyResult with ce | ct <;>
        rcases hfw : env.forwardResult with fe | ft <;>
          simp [hp, hms, hc, hfw, specResult,
            specError, specAttempts, stratOrder, stratSucceeds, takeThroughFirst, isOkE,
            List.find?]

/-- A poll message, for the C2 witness. -/
def msgPollW : Msg :=
  ⟨false, false, false, false, false, false, false, false, false, true, true⟩

/-- Environment for the C2 witness: the poll fetches fine and the platform
copy succeeds. -/
def envPollW : TransferEnv :=
  ⟨.ok (some msgPollW), .error "unused", .ok 42, .error "fw"⟩

/-- C2 witness: concrete poll environment, manual step skipped, copy taken. -/
theorem transfer_strategy_order_witness :
    copyMessageWithFallback envPollW =
      (specResult envPollW msgPollW, specError envPollW msgPollW, specAttempts envPollW msgPollW) :=
  transfer_strategy_order envPollW msgPollW rfl (by decide)

/-- C3 (amended): when all three strategies fail, `bot.py`'s
`copy_message_with_fallback` surfaces the diagnostic of the forward attempt
(step 5), swallowing the manual and copy failures; but `main.py`'s
`copy_message_with_media` surfaces the diagnostic of the copy attempt
(step 4) instead. -/
theorem all_fail_diagnostic (env : TransferEnv) (m : Msg) (e3 e4 e5 : String)
    (hf : env.fetch = .ok (some m))
    (hne : (m.text || m.caption || m.media) = true)
    (hm : env.manualSend = .error e3)
    (hc : env.copyResult = .error e4)
    (hfw : env.forwardResult = .error e5) :
    (copyMessageWithFallback env).1 = none ∧
    (copyMessageWithFallback env).2.1 = some e5 ∧
    copyMessageWithMedia env = (none, some e4) := by
  have hms : (sendMessageByType m env.manualSend).1 = false := by
    unfold sendMessageByType
    rw [hm]
    split
    · rfl
    · split <;> rfl
  have hms2 : (sendMessageCopy m env.manualSend).1 = false := by
    unfold sendMessageCopy
    rw [hm]
    split <;> rfl
  have hempB : (!m.text && !m.caption && !m.media && !m.poll) = false := by
    revert hne
    cases m.text <;> cases m.caption <;> cases m.media <;> simp
  have hempB2 : (!m.text && !m.caption && !m.media) = false := by
    revert hne
    cases m.text <;> cases m.caption <;> cases m.media <;> simp
  refine ⟨?_, ?_, ?_⟩
  · simp only [copyMessageWithFallback, hf]
    rw [hempB]
    cases hp : m.poll <;> simp [hp, hms, hc, hfw]
  · simp only [copyMessageWithFallback, hf]
    rw [hempB]
    cases hp : m.poll <;> simp [hp, hms, hc, hfw]
  · simp only [copyMessageWithMedia, hf]
    rw [hempB2]
    simp [hms2, hc, hfw]

/-- A plain text message, for the C3 witness and counterexample. -/
def msgTextW : Msg :=
  ⟨true, false, false, false, false, false, false, false, false, false, false⟩

/-- Environment in which every strategy fails with a distinct diagnostic. -/
def envFailW : TransferEnv :=
  ⟨.ok (some msgTextW), .error "E3", .error "E4", .error "E5"⟩

/-- C3 witness: concrete all-fail environment for the amended claim. -/
theorem all_fail_diagnostic_witness :
    (copyMessageWithFallback envFailW).1 = none ∧
    (copyMessageWithFallback envFailW).2.1 = some "E5" ∧
    copyMessageWithMedia envFailW = (none, some "E4") :=
  all_fail_diagnostic envFailW msgTextW "E3" "E4" "E5" rfl (by decide) rfl rfl rfl

/-- C3 counterexample: at this concrete input every strategy fails with a
distinct diagnostic, yet `main.py`'s engine returns the diagnostic of the
copy step (`"E4"`), not that of the forward attempt (`"E5"`) — contradicting
the claim that the failure outcome carries the step-5 diagnostic. -/
theorem all_fail_diagnostic_counterexample :
    (copyMessageWithMedia
        ⟨.ok (some ⟨true, false, false, false, false, false, false, false, false, false, false⟩),
         .error "D3", .error "D4", .error "D5"⟩).2 = some "D4" ∧
    some "D4" ≠ some "D5" := by
  refine ⟨rfl, by decide⟩

/- ==================== BATCH COORDINATOR (bot.py, handle_message_link) ==================== -/

/-- The `ACTIVE_BATCHES` dictionary: per-user cancel flag, absent when no
batch is registered for that user. -/
def Store : Type := Nat → Option Bool

/-- An empty `ACTIVE_BATCHES` dictionary. -/
def emptyStore : Store := fun _ => none

/-- `ACTIVE_BATCHES[u] = v`. -/
def insertS (s : Store) (u : Nat) (v : Bool) : Store :=
  fun k => if k = u then some v else s k

/-- `ACTIVE_BATCHES.pop(u, None)`. -/
def eraseS (s : Store) (u : Nat) : Store :=
  fun k => if k = u then none else s k

/-- Substring test, Python's `pat in hay`. -/
def containsStr (pat : List Char) : List Char → Bool
  | [] => pat.isEmpty
  | c :: t => pat.isPrefixOf (c :: t) || containsStr pat t

/-- The ordered substring → response table of `handle_copy_error`
(`bot.py`, `error_responses`); Python dict iteration preserves insertion
order, so first match wins. -/
def classifyTable : List (String × String) :=
  [("CHAT_ADMIN_REQUIRED", "❌ **Error:** Bot needs admin rights in the source channel."),
   ("USER_NOT_PARTICIPANT", "❌ **Error:** Bot is not a member of the source channel. Please add it."),
   ("MESSAGE_ID_INVALID", "❌ **Error:** Message not found or invalid message ID."),
   ("CHANNEL_PRIVATE", "❌ **Error:** Cannot access private channel. This bot only supports public channels."),
   ("PEER_ID_INVALID", "❌ **Error:** Invalid channel/chat ID. Make sure the link is correct."),
   ("FLOOD_WAIT", "❌ **Error:** Rate limited by Telegram. Please try again later."),
   ("Message is empty", "❌ **Error:** The message appears to be empty or has no content to copy.")]

/-- Whether an error string is the one suppressed code
(`"MESSAGE_NOT_MODIFIED" in error_msg`). -/
def suppressedStr (e : String) : Bool :=
  containsStr "MESSAGE_NOT_MODIFIED".data e.data

/-- The user-visible edits applied to the status placeholder message. -/
inductive Edit
  | progress
  | cancelNotice
  | successMsg
  | summary (succ fail : Nat)
  | errorMsg (m : String)
  | invalidFormat
  | invertedRange
  | tooLarge
deriving DecidableEq, Repr

/-- Everything except the progress notice is a terminal status. -/
def isTerminal : Edit → Bool
  | Edit.progress => false
  | _ => true

/-- `bot.py` `handle_copy_error`: the suppressed code produces no edit at
all; otherwise the first matching table entry's canned text, or the generic
unexpected-error text carrying the raw diagnostic. -/
def handleCopyError (e : String) : Option Edit :=
  if suppressedStr e then none
  else
    match classifyTable.find? (fun p => containsStr p.1.data e.data) with
    | some p => some (Edit.errorMsg p.2)
    | none => some (Edit.errorMsg ("❌ **An unexpected error occurred:**\n`" ++ e ++ "`"))

/-- Why the loop stopped early: cancellation observed, or an exception
raised inside the loop body. -/
inductive Stop
  | cancelled
  | exn (e : String)
deriving DecidableEq, Repr

/-- The loop-local state of `handle_message_link`'s `for` loop:
`success_count`, `fail_count`, `last_error`, plus instrumentation — the ids
for which a transfer was invoked, the status edits made so far, and whether
(and why) the loop stopped early. -/
@[ext] structure LoopSt where
  succ : Nat
  fail : Nat
  lastErr : Option String
  attempts : List Nat
  edits : List Edit
  stopped : Option Stop
deriving Repr

/-- Initial loop state. -/
def initSt : LoopSt :=
  { succ := 0, fail := 0, lastErr := none, attempts := [], edits := [], stopped := none }

/-- The cancel flag visible at the `k`-th read of `ACTIVE_BATCHES` for this
user: `cancelPoint = some c` means the `/cancel` handler's write becomes
visible from the `c`-th read on (the flag is only ever set, never cleared,
during a run, so visibility is monotone); `none` means no cancellation is
requested during the run. -/
def cancelFlag (cancelPoint : Option Nat) (k : Nat) : Bool :=
  match cancelPoint with
  | some c => decide (c ≤ k)
  | none => false

/-- The body of `for msg_id in range(msg_start, msg_end + 1)`, one message
per step: check the cancel flag first (edit the cancellation notice,
overwrite `fail_count` with `(msg_end + 1) - msg_id`, and break); otherwise
invoke the transfer engine (whose outcome the `outcomes` oracle supplies:
`none` = success, `some e` = failure with diagnostic `e` — the engine
itself never raises), update the counters, and then possibly hit an
exception at one of the loop's await points (`exnAt` oracle: at most one
exception, fired when the iteration index reaches it).  `i` is the 0-based
iteration index, so `msg_id = a + i`; `k` is the number of iterations left. -/
def runLoopAux (outcomes : Nat → Option String) (flag : Nat → Bool)
    (exnAt : Option (Nat × String)) (a b : Nat) : Nat → LoopSt → Nat → LoopSt
  | _, st, 0 => st
  | i, st, Nat.succ k =>
    if flag i then
      { st with edits := st.edits ++ [Edit.cancelNotice],
                fail := b + 1 - (a + i),
                stopped := some Stop.cancelled }
    else
      let st1 := { st with attempts := st.attempts ++ [a + i] }
      let st2 := match outcomes (a + i) with
        | none => { st1 with succ := st1.succ + 1 }
        | some e => { st1 with fail := st1.fail + 1, lastErr := some e }
      match exnAt with
      | some (x, e) =>
        if i = x then { st2 with stopped := some (Stop.exn e) }
        else runLoopAux outcomes flag exnAt a b (i + 1) st2 k
      | none => runLoopAux outcomes flag exnAt a b (i + 1) st2 k

/-- What one run of the post-parse part of `handle_message_link` produces:
the status edits in order, the final `ACTIVE_BATCHES` store, the final
counters, and the ids for which a transfer was invoked. -/
@[ext] structure RunResult where
  edits : List Edit
  store : Store
  succ : Nat
  fail : Nat
  attempts : List Nat

/-- The accepted-range path of `handle_message_link` (preconditions already
passed): register `ACTIVE_BATCHES[user] = False`, emit the progress notice
for multi-message ranges, run the loop, and report — success / classified
error for a single message, the aggregate summary for a batch — but only
when the post-loop cancel-flag read (read index `n`) is false; an exception
escaping the loop is routed through `handle_copy_error`; the `finally`
clause pops the user's entry on every path. -/
def runAccepted (loc : Locator) (outcomes : Nat → Option String)
    (cancelPoint : Option Nat) (exnAt : Option (Nat × String)) (u : Nat) (s : Store) :
    RunResult :=
  let n := loc.msgEnd - loc.msgStart + 1
  let s1 := insertS s u false
  let pre : List Edit := if n > 1 then [Edit.progress] else []
  let st := runLoopAux outcomes (cancelFlag cancelPoint) exnAt loc.msgStart loc.msgEnd 0 initSt n
  match st.stopped with
  | some (Stop.exn e) =>
    { edits := pre ++ st.edits ++ (handleCopyError e).toList, store := eraseS s1 u,
      succ := st.succ, fail := st.fail, attempts := st.attempts }
  | some Stop.cancelled =>
    { edits := pre ++ st.edits, store := eraseS s1 u,
      succ := st.succ, fail := st.fail, attempts := st.attempts }
  | none =>
    if n == 1 && !(cancelFlag cancelPoint n) then
      if st.succ == 1 then
        { edits := pre ++ st.edits ++ [Edit.successMsg], store := eraseS s1 u,
          succ := st.succ, fail := st.fail, attempts := st.attempts }
      else
        { edits := pre ++ st.edits ++ (handleCopyError (st.lastErr.getD "None")).toList,
          store := eraseS s1 u, succ := st.succ, fail := st.fail, attempts := st.attempts }
    else if !(cancelFlag cancelPoint n) then
      { edits := pre ++ st.edits ++ [Edit.summary st.succ st.fail], store := eraseS s1 u,
        succ := st.succ, fail := st.fail, attempts := st.attempts }
    else
      { edits := pre ++ st.edits, store := eraseS s1 u,
        succ := st.succ, fail := st.fail, attempts := st.attempts }

/-- The post-parse body of `handle_message_link` (`bot.py` lines 707–791):
the `try` block checks the parse result, the range orientation and the
`BATCH_LIMIT = 100` bound (each early return edits one message and, through
the `finally` clause, pops the user's entry), and otherwise runs the
accepted path. -/
def runParsed (parsed : Option Locator) (outcomes : Nat → Option String)
    (cancelPoint : Option Nat) (exnAt : Option (Nat × String)) (u : Nat) (s : Store) :
    RunResult :=
  match parsed with
  | none => { edits := [Edit.invalidFormat], store := eraseS s u, succ := 0, fail := 0, attempts := [] }
  | some loc =>
    if loc.msgStart > loc.msgEnd then
      { edits := [Edit.invertedRange], store := eraseS s u, succ := 0, fail := 0, attempts := [] }
    else if loc.msgEnd - loc.msgStart + 1 > 100 then
      { edits := [Edit.tooLarge], store := eraseS s u, succ := 0, fail := 0, attempts := [] }
    else
      runAccepted loc outcomes cancelPoint exnAt u s

lemma runParsed_accepts (loc : Locator) (outcomes : Nat → Option String)
    (cancelPoint : Option Nat) (exnAt : Option (Nat × String)) (u : Nat) (s : Store)
    (hbe : ¬ loc.msgStart > loc.msgEnd) (hlim : ¬ loc.msgEnd - loc.msgStart + 1 > 100) :
    runParsed (some loc) outcomes cancelPoint exnAt u s =
      runAccepted loc outcomes cancelPoint exnAt u s := by
  simp only [runParsed]
  rw [if_neg hbe, if_neg hlim]

/-- `bot.py` `cancel_command` replies (post ban-check). -/
inductive CancelReply
  | requesting
  | alreadyPending
  | nothingToCancel
deriving DecidableEq, Repr

/-- `bot.py` `cancel_command` (lines 505–514): `ACTIVE_BATCHES.get(user_id)`
is compared by identity with `False` and then `True`; only an entry that is
present with value `False` is flipped to `True`. -/
def cancelCommand (s : Store) (u : Nat) : Store × CancelReply :=
  match s u with
  | some false => (insertS s u true, CancelReply.requesting)
  | some true => (s, CancelReply.alreadyPending)
  | none => (s, CancelReply.nothingToCancel)

/-- C4: after a batch run finishes — normal completion, cancellation, or an
unhandled exception raised inside the loop — no Batch Run State (no
`ACTIVE_BATCHES` entry) remains for the requester, on every execution path,
for every requester, every oracle and every initial store: the `finally`
clause pops the entry unconditionally. -/
theorem batch_state_cleanup (parsed : Option Locator) (outcomes : Nat → Option String)
    (cancelPoint : Option Nat) (exnAt : Option (Nat × String)) (u : Nat) (s : Store) :
    (runParsed parsed outcomes cancelPoint exnAt u s).store u = none := by
  cases parsed <;> simp only [runParsed, runAccepted] <;> repeat' split
  all_goals simp [eraseS]

/-- C6: the `/cancel` handler sets the flag to true exactly when an entry
with value false exists; an already-true flag is reported as pending and
left unchanged; a missing entry is reported as nothing-to-cancel; entries of
other users are untouched; and after the command the flag is true exactly
when it was false (just requested) or already true (a requested cancellation
is never undone).  With the store typed `Nat → Option Bool` the only
observable per-user states are none, some false and some true. -/
theorem cancel_command_spec (s : Store) (u : Nat) :
    ((cancelCommand s u).2 = CancelReply.requesting ↔ s u = some false) ∧
    ((cancelCommand s u).2 = CancelReply.alreadyPending ↔ s u = some true) ∧
    ((cancelCommand s u).2 = CancelReply.nothingToCancel ↔ s u = none) ∧
    (∀ k, (cancelCommand s u).1 k =
      if k = u then (if s u = some false then some true else s u) else s k) ∧
    ((cancelCommand s u).1 u = some true ↔ (s u = some false ∨ s u = some true)) := by
  rcases hs : s u with _ | b
  · refine ⟨by simp [cancelCommand, hs], by simp [cancelCommand, hs],
      by simp [cancelCommand, hs], ?_, by simp [cancelCommand, hs]⟩
    intro k
    by_cases hk : k = u
    · subst hk; simp [cancelCommand, hs]
    · simp [cancelCommand, hs, hk]
  · cases b
    · refine ⟨by simp [cancelCommand, hs], by simp [cancelCommand, hs],
        by simp [cancelCommand, hs], ?_, by simp [cancelCommand, hs, insertS]⟩
      intro k
      by_cases hk : k = u
      · subst hk; simp [cancelCommand, hs, insertS]
      · simp [cancelCommand, hs, hk, insertS]
    · refine ⟨by simp [cancelCommand, hs], by simp [cancelCommand, hs],
        by simp [cancelCommand, hs], ?_, by simp [cancelCommand, hs]⟩
      intro k
      by_cases hk : k = u
      · subst hk; simp [cancelCommand, hs]
      · simp [cancelCommand, hs, hk]

/- ==================== USER DIRECTORY / BAN CHECK (bot.py) ==================== -/

/-- A Firestore user document as the handlers read it back: the
`is_banned` field may be absent (`none`) in old documents. -/
structure UserRecord where
  firstName : String
  username : String
  isBanned : Option Bool
deriving DecidableEq, Repr

/-- Outcome of the Firestore document read: the read raises, the document
does not exist, or it exists with contents `r`. -/
inductive DbFetch
  | fail
  | noDoc
  | doc (r : UserRecord)
deriving DecidableEq, Repr

/-- The Telegram user attributes `add_or_update_user` consumes. -/
structure UserInfo where
  id : Nat
  firstName : String
  username : Option String
deriving DecidableEq, Repr

/-- `bot.py` `add_or_update_user`: returns `None` when the Firestore client
is unavailable or the read/update raises; for a new user it writes and
returns a record with `is_banned = False`; for an existing user it returns
`user_doc.to_dict()` — the stored record as-is (possibly still missing
`is_banned`, which the caller defaults to false). -/
def addOrUpdateUser (dbOk : Bool) (user : UserInfo) (f : DbFetch) : Option UserRecord :=
  if !dbOk then none
  else
    match f with
    | DbFetch.fail => none
    | DbFetch.noDoc =>
      some { firstName := user.firstName, username := user.username.getD "", isBanned := some false }
    | DbFetch.doc r => some r

/-- `bot.py` `get_user_data`: `None` when the client is unavailable, the
read raises, or the document does not exist. -/
def getUserData (dbOk : Bool) (f : DbFetch) : Option UserRecord :=
  if !dbOk then none
  else
    match f with
    | DbFetch.fail => none
    | DbFetch.noDoc => none
    | DbFetch.doc r => some r

/-- The handlers' gate `if user_data and user_data.get('is_banned', False)`. -/
def banBlocked (d : Option UserRecord) : Bool :=
  match d with
  | some r => r.isBanned.getD false
  | none => false

/-- C10: ban enforcement fails open — on both the link handler's lookup
(`add_or_update_user`) and the command handlers' lookup (`get_user_data`),
the request is blocked exactly when the database is reachable and a document
exists whose `is_banned` field is stored as true; an unavailable client, a
failed or empty lookup, or a record without the field all proceed as
unbanned. -/
theorem ban_fails_open (dbOk : Bool) (user : UserInfo) (f : DbFetch) :
    (banBlocked (addOrUpdateUser dbOk user f) = true ↔
      dbOk = true ∧ ∃ r, f = DbFetch.doc r ∧ r.isBanned = some true) ∧
    (banBlocked (getUserData dbOk f) = true ↔
      dbOk = true ∧ ∃ r, f = DbFetch.doc r ∧ r.isBanned = some true) := by
  cases dbOk with
  | false => simp [addOrUpdateUser, getUserData, banBlocked]
  | true =>
    cases f with
    | fail => simp [addOrUpdateUser, getUserData, banBlocked]
    | noDoc => simp [addOrUpdateUser, getUserData, banBlocked]
    | doc r =>
      rcases hb : r.isBanned with _ | b
      · simp [addOrUpdateUser, getUserData, banBlocked, hb]
      · cases b <;> simp [addOrUpdateUser, getUserData, banBlocked, hb]

/-- The value of `last_error` after processing the listed iteration indices
in order (`a + j` is the message id of index `j`). -/
def lastErrAux (outcomes : Nat → Option String) (a : Nat) : List Nat → Option String → Option String
  | [], e => e
  | j :: js, e =>
    lastErrAux outcomes a js
      (match outcomes (a + j) with
       | some x => some x
       | none => e)

lemma filter_isNone_add_isSome (f : Nat → Option String) (a : Nat) (l : List Nat) :
    ((l.filter (fun j => (f (a + j)).isNone)).length
      + (l.filter (fun j => (f (a + j)).isSome)).length) = l.length := by
  induction l with
  | nil => simp
  | cons hd tl ih =>
    cases hf : f (a + hd) <;> simp [List.filter_cons, hf] <;> omega

/-- A loop run during which the cancel flag is never seen and no exception
fires processes every remaining id, accumulating counters, attempts and
`last_error` over the window and leaving edits and stop status untouched. -/
lemma runLoopAux_complete (outcomes : Nat → Option String) (flag : Nat → Bool)
    (exnAt : Option (Nat × String)) (a b : Nat) :
    ∀ (k i : Nat) (st : LoopSt),
      (∀ j, j < i + k → flag j = false) →
      (∀ x e, exnAt = some (x, e) → i + k ≤ x) →
      runLoopAux outcomes flag exnAt a b i st k =
        { succ := st.succ + ((List.range' i k).filter (fun j => (outcomes (a + j)).isNone)).length,
          fail := st.fail + ((List.range' i k).filter (fun j => (outcomes (a + j)).isSome)).length,
          lastErr := lastErrAux outcomes a (List.range' i k) st.lastErr,
          attempts := st.attempts ++ (List.range' i k).map (fun j => a + j),
          edits := st.edits,
          stopped := st.stopped } := by
  intro k
  induction k with
  | zero =>
    intro i st _ _
    simp [runLoopAux, lastErrAux]
  | succ k ih =>
    intro i st hflag hexn
    have hfi : flag i = false := hflag i (by omega)
    rw [runLoopAux, hfi]
    simp only [Bool.false_eq_true, if_false]
    have hrec : ∀ st2 : LoopSt,
        runLoopAux outcomes flag exnAt a b (i + 1) st2 k =
          { succ := st2.succ + ((List.range' (i+1) k).filter (fun j => (outcomes (a + j)).isNone)).length,
            fail := st2.fail + ((List.range' (i+1) k).filter (fun j => (outcomes (a + j)).isSome)).length,
            lastErr := lastErrAux outcomes a (List.range' (i+1) k) st2.lastErr,
            attempts := st2.attempts ++ (List.range' (i+1) k).map (fun j => a + j),
            edits := st2.edits,
            stopped := st2.stopped } := by
      intro st2
      exact ih (i + 1) st2 (fun j hj => hflag j (by omega)) (fun x e hx => by
        have := hexn x e hx; omega)
    cases hx : exnAt with
    | some pr =>
      rcases pr with ⟨x, e⟩
      rw [hx] at hrec
      have hix : ¬ i = x := by
        have := hexn x e hx; omega
      simp only [hix, if_false]
      cases ho : outcomes (a + i) with
      | none =>
        rw [hrec]
        apply LoopSt.ext <;>
          simp [List.range'_succ, List.filter_cons, ho, lastErrAux, List.map_cons] <;> omega
      | some er =>
        rw [hrec]
        apply LoopSt.ext <;>
          simp [List.range'_succ, List.filter_cons, ho, lastErrAux, List.map_cons] <;> omega
    | none =>
      rw [hx] at hrec
      cases ho : outcomes (a + i) with
      | none =>
        rw [hrec]
        apply LoopSt.ext <;>
          simp [List.range'_succ, List.filter_cons, ho, lastErrAux, List.map_cons] <;> omega
      | some er =>
        rw [hrec]
        apply LoopSt.ext <;>
          simp [List.range'_succ, List.filter_cons, ho, lastErrAux, List.map_cons] <;> omega

/-- A loop run in which the cancel flag first reads true at index `c`
(inside the window) processes exactly the ids before `c`, then edits the
cancellation notice, overwrites `fail_count` with the count of remaining ids
`(msg_end + 1) - msg_id` — discarding any failures recorded so far — and
stops. -/
lemma runLoopAux_cancel (outcomes : Nat → Option String) (flag : Nat → Bool)
    (exnAt : Option (Nat × String)) (a b c : Nat) :
    ∀ (k i : Nat) (st : LoopSt),
      i ≤ c → c < i + k →
      (∀ j, i ≤ j → j < c → flag j = false) →
      flag c = true →
      (∀ x e, exnAt = some (x, e) → c ≤ x) →
      runLoopAux outcomes flag exnAt a b i st k =
        { succ := st.succ + ((List.range' i (c - i)).filter (fun j => (outcomes (a + j)).isNone)).length,
          fail := b + 1 - (a + c),
          lastErr := lastErrAux outcomes a (List.range' i (c - i)) st.lastErr,
          attempts := st.attempts ++ (List.range' i (c - i)).map (fun j => a + j),
          edits := st.edits ++ [Edit.cancelNotice],
          stopped := some Stop.cancelled } := by
  intro k
  induction k with
  | zero =>
    intro i st hic hlt _ _ _
    omega
  | succ k ih =>
    intro i st hic hlt hflag hfc hexn
    by_cases hieq : i = c
    · subst hieq
      rw [runLoopAux, hfc]
      simp [lastErrAux]
    · have hilt : i < c := by omega
      have hfi : flag i = false := hflag i (by omega) hilt
      rw [runLoopAux, hfi]
      simp only [Bool.false_eq_true, if_false]
      have hwin : c - i = (c - (i + 1)) + 1 := by omega
      have hrec : ∀ st2 : LoopSt,
          runLoopAux outcomes flag exnAt a b (i + 1) st2 k =
            { succ := st2.succ +
                ((List.range' (i+1) (c - (i+1))).filter (fun j => (outcomes (a + j)).isNone)).length,
              fail := b + 1 - (a + c),
              lastErr := lastErrAux outcomes a (List.range' (i+1) (c - (i+1))) st2.lastErr,
              attempts := st2.attempts ++ (List.range' (i+1) (c - (i+1))).map (fun j => a + j),
              edits := st2.edits ++ [Edit.cancelNotice],
              stopped := some Stop.cancelled } := by
        intro st2
        exact ih (i + 1) st2 (by omega) (by omega)
          (fun j hj1 hj2 => hflag j (by omega) hj2) hfc hexn
      cases hx : exnAt with
      | some pr =>
        rcases pr with ⟨x, e⟩
        rw [hx] at hrec
        have hix : ¬ i = x := by
          have := hexn x e hx; omega
        simp only [hix, if_false]
        cases ho : outcomes (a + i) with
        | none =>
          rw [hrec]
          apply LoopSt.ext <;>
            simp [hwin, List.range'_succ, List.filter_cons, ho, lastErrAux, List.map_cons] <;>
              omega
        | some er =>
          rw [hrec]
          apply LoopSt.ext <;>
            simp [hwin, List.range'_succ, List.filter_cons, ho, lastErrAux, List.map_cons] <;>
              omega
      | none =>
        rw [hx] at hrec
        cases ho : outcomes (a + i) with
        | none =>
          rw [hrec]
          apply LoopSt.ext <;>
            simp [hwin, List.range'_succ, List.filter_cons, ho, lastErrAux, List.map_cons] <;>
              omega
        | some er =>
          rw [hrec]
          apply LoopSt.ext <;>
            simp [hwin, List.range'_succ, List.filter_cons, ho, lastErrAux, List.map_cons] <;>
              omega

/-- A loop run in which the exception fires at index `x` (inside the window,
before any cancellation is seen) processes the ids up to and including `x`
and then stops with the exception; edits are untouched. -/
lemma runLoopAux_exn (outcomes : Nat → Option String) (flag : Nat → Bool)
    (a b x : Nat) (e : String) :
    ∀ (k i : Nat) (st : LoopSt),
      i ≤ x → x < i + k →
      (∀ j, i ≤ j → j ≤ x → flag j = false) →
      runLoopAux outcomes flag (some (x, e)) a b i st k =
        { succ := st.succ +
            ((List.range' i (x + 1 - i)).filter (fun j => (outcomes (a + j)).isNone)).length,
          fail := st.fail +
            ((List.range' i (x + 1 - i)).filter (fun j => (outcomes (a + j)).isSome)).length,
          lastErr := lastErrAux outcomes a (List.range' i (x + 1 - i)) st.lastErr,
          attempts := st.attempts ++ (List.range' i (x + 1 - i)).map (fun j => a + j),
          edits := st.edits,
          stopped := some (Stop.exn e) } := by
  intro k
  induction k with
  | zero =>
    intro i st hix hlt _
    omega
  | succ k ih =>
    intro i st hix hlt hflag
    have hfi : flag i = false := hflag i (by omega) hix
    rw [runLoopAux, hfi]
    simp only [Bool.false_eq_true, if_false]
    by_cases hieq : i = x
    · subst hieq
      simp only [if_pos rfl]
      have hwin : i + 1 - i = 1 := by omega
      cases ho : outcomes (a + i) with
      | none =>
        apply LoopSt.ext <;>
          simp [hwin, List.range'_succ, List.filter_cons, ho, lastErrAux, List.map_cons]
      | some er =>
        apply LoopSt.ext <;>
          simp [hwin, List.range'_succ, List.filter_cons, ho, lastErrAux, List.map_cons]
    · simp only [hieq, if_false]
      have hwin : x + 1 - i = (x + 1 - (i + 1)) + 1 := by omega
      have hrec : ∀ st2 : LoopSt,
          runLoopAux outcomes flag (some (x, e)) a b (i + 1) st2 k =
            { succ := st2.succ +
                ((List.range' (i+1) (x + 1 - (i+1))).filter (fun j => (outcomes (a + j)).isNone)).length,
              fail := st2.fail +
                ((List.range' (i+1) (x + 1 - (i+1))).filter (fun j => (outcomes (a + j)).isSome)).length,
              lastErr := lastErrAux outcomes a (List.range' (i+1) (x + 1 - (i+1))) st2.lastErr,
              attempts := st2.attempts ++ (List.range' (i+1) (x + 1 - (i+1))).map (fun j => a + j),
              edits := st2.edits,
              stopped := some (Stop.exn e) } := by
        intro st2
        exact ih (i + 1) st2 (by omega) (by omega) (fun j hj1 hj2 => hflag j (by omega) hj2)
      cases ho : outcomes (a + i) with
      | none =>
        rw [hrec]
        apply LoopSt.ext <;>
          simp [hwin, List.range'_succ, List.filter_cons, ho, lastErrAux, List.map_cons] <;>
            omega
      | some er =>
        rw [hrec]
        apply LoopSt.ext <;>
          simp [hwin, List.range'_succ, List.filter_cons, ho, lastErrAux, List.map_cons] <;>
            omega

/-- C5: with `BATCH_LIMIT = 100`, for every locator with
`range-start ≤ range-end`, a range of inclusive size exactly 100 is accepted
and fully processed (a transfer is invoked for each of the 100 ids, and the
range-too-large message never appears), while a range of size 101 or more is
rejected with the range-too-large message before any transfer is attempted
(the attempt list is empty). -/
theorem batch_limit_enforced (loc : Locator) (outcomes : Nat → Option String) (u : Nat) (s : Store)
    (h : loc.msgStart ≤ loc.msgEnd) :
    (loc.msgEnd - loc.msgStart + 1 = 100 →
      (runParsed (some loc) outcomes none none u s).attempts = List.range' loc.msgStart 100 ∧
      Edit.tooLarge ∉ (runParsed (some loc) outcomes none none u s).edits) ∧
    (101 ≤ loc.msgEnd - loc.msgStart + 1 →
      runParsed (some loc) outcomes none none u s =
        { edits := [Edit.tooLarge], store := eraseS s u, succ := 0, fail := 0, attempts := [] }) := by
  have hbe : ¬ loc.msgStart > loc.msgEnd := by omega
  constructor
  · intro h100
    have hlim : ¬ loc.msgEnd - loc.msgStart + 1 > 100 := by omega
    have hst := runLoopAux_complete outcomes (cancelFlag none) none loc.msgStart loc.msgEnd
      (loc.msgEnd - loc.msgStart + 1) 0 initSt
      (fun j _ => rfl) (fun x e hx => by cases hx)
    rw [runParsed_accepts loc outcomes none none u s hbe hlim]
    simp only [runAccepted]
    rw [hst]
    simp only [initSt, h100]
    constructor
    · simp [List.map_add_range', cancelFlag]
    · simp [cancelFlag]
  · intro h101
    have hlim : loc.msgEnd - loc.msgStart + 1 > 100 := by omega
    simp only [runParsed]
    rw [if_neg hbe, if_pos hlim]

/-- C5 witness: the concrete ranges 1–100 (accepted, 100 transfers) and
1–101 (rejected, none attempted). -/
theorem batch_limit_enforced_witness :
    ((runParsed (some { channel := "c", topicId := none, msgStart := 1, msgEnd := 100 })
        (fun _ => none) none none 7 emptyStore).attempts = List.range' 1 100 ∧
      Edit.tooLarge ∉ (runParsed (some { channel := "c", topicId := none, msgStart := 1, msgEnd := 100 })
        (fun _ => none) none none 7 emptyStore).edits) ∧
    runParsed (some { channel := "c", topicId := none, msgStart := 1, msgEnd := 101 })
        (fun _ => none) none none 7 emptyStore =
      { edits := [Edit.tooLarge], store := eraseS emptyStore 7, succ := 0, fail := 0, attempts := [] } := by
  constructor
  · exact (batch_limit_enforced _ (fun _ => none) 7 emptyStore (by decide)).1 (by decide)
  · exact (batch_limit_enforced _ (fun _ => none) 7 emptyStore (by decide)).2 (by decide)

/-- C1 (amended): when cancellation is first observed at the top of the
iteration with 0-based index `c`, the loop stops before attempting that id
(the attempt list is exactly the ids before it), the final report is the
cancellation notice (the last status edit, with no aggregate summary), and
the failed counter is **overwritten** with the number of remaining
unprocessed ids (inclusive of the current one) — discarding failures
recorded before the cancellation — so succeeded + failed equals the full
range size minus the number of transfers that had already failed, which is
the full range size only when no transfer had failed before cancellation. -/
theorem batch_cancel_reports (loc : Locator) (outcomes : Nat → Option String) (c u : Nat) (s : Store)
    (h1 : loc.msgStart ≤ loc.msgEnd)
    (h2 : loc.msgEnd - loc.msgStart + 1 ≤ 100)
    (h3 : c < loc.msgEnd - loc.msgStart + 1) :
    runParsed (some loc) outcomes (some c) none u s =
      { edits := (if loc.msgEnd - loc.msgStart + 1 > 1 then [Edit.progress] else [])
          ++ [Edit.cancelNotice],
        store := eraseS (insertS s u false) u,
        succ := ((List.range' 0 c).filter (fun j => (outcomes (loc.msgStart + j)).isNone)).length,
        fail := loc.msgEnd + 1 - (loc.msgStart + c),
        attempts := (List.range' 0 c).map (fun j => loc.msgStart + j) } ∧
    ((List.range' 0 c).filter (fun j => (outcomes (loc.msgStart + j)).isNone)).length
      + (loc.msgEnd + 1 - (loc.msgStart + c))
      + ((List.range' 0 c).filter (fun j => (outcomes (loc.msgStart + j)).isSome)).length
      = loc.msgEnd - loc.msgStart + 1 := by
  have hbe : ¬ loc.msgStart > loc.msgEnd := by omega
  have hlim : ¬ loc.msgEnd - loc.msgStart + 1 > 100 := by omega
  have hst := runLoopAux_cancel outcomes (cancelFlag (some c)) none loc.msgStart loc.msgEnd c
    (loc.msgEnd - loc.msgStart + 1) 0 initSt (by omega) (by omega)
    (fun j _ hj => by simp [cancelFlag]; omega)
    (by simp [cancelFlag])
    (fun x e hx => by cases hx)
  constructor
  · rw [runParsed_accepts loc outcomes (some c) none u s hbe hlim]
    simp only [runAccepted]
    rw [hst]
    apply RunResult.ext <;> simp [initSt]
  · have hpart := filter_isNone_add_isSome outcomes loc.msgStart (List.range' 0 c)
    rw [List.length_range'] at hpart
    omega

/-- C1 witness: range 10–12 with all transfers succeeding and cancellation
observed at the second iteration. -/
theorem batch_cancel_reports_witness :
    runParsed (some { channel := "w", topicId := none, msgStart := 10, msgEnd := 12 })
        (fun _ => none) (some 1) none 3 emptyStore =
      { edits := (if (12 : Nat) - 10 + 1 > 1 then [Edit.progress] else []) ++ [Edit.cancelNotice],
        store := eraseS (insertS emptyStore 3 false) 3,
        succ := ((List.range' 0 1).filter
          (fun j => ((fun _ => (none : Option String)) (10 + j)).isNone)).length,
        fail := 12 + 1 - (10 + 1),
        attempts := (List.range' 0 1).map (fun j => 10 + j) } ∧
    ((List.range' 0 1).filter (fun j => ((fun _ => (none : Option String)) (10 + j)).isNone)).length
      + (12 + 1 - (10 + 1))
      + ((List.range' 0 1).filter
          (fun j => ((fun _ => (none : Option String)) (10 + j)).isSome)).length
      = 12 - 10 + 1 := by
  exact batch_cancel_reports { channel := "w", topicId := none, msgStart := 10, msgEnd := 12 }
    (fun _ => none) 1 3 emptyStore (by decide) (by decide) (by decide)

/-- C1 counterexample: batch 500–502 in which message 500 fails and
cancellation is observed at message 501.  The code overwrites `fail_count`
with the remaining count 2, so succeeded (0) + failed (2) = 2 ≠ 3, the full
range size — refuting the claim that the counts always sum to the full range
size when some transfers already failed before cancellation. -/
theorem batch_cancel_sum_counterexample :
    (runParsed (some { channel := "c", topicId := none, msgStart := 500, msgEnd := 502 })
        (fun id => if id == 500 then some "E" else none) (some 1) none 7 emptyStore).succ = 0 ∧
    (runParsed (some { channel := "c", topicId := none, msgStart := 500, msgEnd := 502 })
        (fun id => if id == 500 then some "E" else none) (some 1) none 7 emptyStore).fail = 2 ∧
    (0 : Nat) + 2 ≠ 502 - 500 + 1 := by
  refine ⟨rfl, rfl, by decide⟩

lemma handleCopyError_errorMsg (e : String) (h : suppressedStr e = false) :
    ∃ m, handleCopyError e = some (Edit.errorMsg m) := by
  unfold handleCopyError
  rw [h]
  simp only [Bool.false_eq_true, if_false]
  cases hf : classifyTable.find? (fun p => containsStr p.1.data e.data)
  · exact ⟨_, rfl⟩
  · exact ⟨_, rfl⟩

lemma filter_terminal_pre (n : Nat) (rest : List Edit) :
    (((if n > 1 then [Edit.progress] else []) ++ rest).filter isTerminal) =
      rest.filter isTerminal := by
  split <;> simp [isTerminal]

/-- C9 (amended): for every processed link request, the requester receives
exactly one terminal status — success confirmation, aggregate summary,
cancellation notice, or classified error — as a single edit of the status
placeholder, provided (a) no involved error string is the suppressed
"message not modified" code (which by design produces no edit at all), and
(b) any cancellation request becomes visible at one of the loop's flag
reads, not only at the post-loop read (a cancellation that lands after the
final iteration's check suppresses both the cancellation notice and the
summary; see the counterexample), and (c) an injected exception fires at an
index the loop actually reaches. -/
theorem one_terminal_status (parsed : Option Locator) (outcomes : Nat → Option String)
    (cancelPoint : Option Nat) (exnAt : Option (Nat × String)) (u : Nat) (s : Store)
    (hc : ∀ c loc, cancelPoint = some c → parsed = some loc → loc.msgStart ≤ loc.msgEnd →
      loc.msgEnd - loc.msgStart + 1 ≤ 100 → c < loc.msgEnd - loc.msgStart + 1)
    (hxin : ∀ x e loc, exnAt = some (x, e) → parsed = some loc → loc.msgStart ≤ loc.msgEnd →
      loc.msgEnd - loc.msgStart + 1 ≤ 100 → x < loc.msgEnd - loc.msgStart + 1)
    (ho : ∀ id e, outcomes id = some e → suppressedStr e = false)
    (hx : ∀ x e, exnAt = some (x, e) → suppressedStr e = false) :
    ((runParsed parsed outcomes cancelPoint exnAt u s).edits.filter isTerminal).length = 1 := by
  cases parsed with
  | none => simp [runParsed, isTerminal]
  | some loc =>
    by_cases hbe : loc.msgStart > loc.msgEnd
    · simp [runParsed, hbe, isTerminal]
    · by_cases hlim : loc.msgEnd - loc.msgStart + 1 > 100
      · simp [runParsed, hbe, hlim, isTerminal]
      · have hse : loc.msgStart ≤ loc.msgEnd := by omega
        have hsz : loc.msgEnd - loc.msgStart + 1 ≤ 100 := by omega
        rw [runParsed_accepts loc outcomes cancelPoint exnAt u s hbe hlim]
        simp only [runAccepted]
        rcases hcp : cancelPoint with _ | c
        · rcases hxa : exnAt with _ | pr
          · -- no cancellation, no exception: complete run, normal report
            have hst := runLoopAux_complete outcomes (cancelFlag none) none loc.msgStart
              loc.msgEnd (loc.msgEnd - loc.msgStart + 1) 0 initSt
              (fun j _ => rfl) (fun x e hxx => by cases hxx)
            rw [hst]
            simp only [initSt]
            by_cases hn : loc.msgEnd - loc.msgStart + 1 = 1
            · rw [hn]
              cases hoo : outcomes loc.msgStart with
              | none =>
                simp [cancelFlag, List.range'_succ, List.filter_cons, hoo, isTerminal,
                  lastErrAux]
              | some e =>
                obtain ⟨msg, hmsg⟩ := handleCopyError_errorMsg e (ho _ e hoo)
                simp [cancelFlag, List.range'_succ, List.filter_cons, hoo, isTerminal,
                  lastErrAux, hmsg]
            · have hn2 : loc.msgEnd - loc.msgStart + 1 > 1 := by omega
              have hneq : ((loc.msgEnd - loc.msgStart + 1) == 1) = false := by
                simp
                omega
              simp [cancelFlag, hneq, hn2, filter_terminal_pre, isTerminal]
          · -- exception fires inside the loop (no cancellation)
            rcases pr with ⟨x, e⟩
            have hxlt : x < loc.msgEnd - loc.msgStart + 1 :=
              hxin x e loc (by rw [hxa]) rfl hse hsz
            have hst := runLoopAux_exn outcomes (cancelFlag none) loc.msgStart loc.msgEnd x e
              (loc.msgEnd - loc.msgStart + 1) 0 initSt (by omega) (by omega)
              (fun j _ _ => rfl)
            rw [hst]
            simp only [initSt]
            obtain ⟨msg, hmsg⟩ := handleCopyError_errorMsg e (hx x e (by rw [hxa]))
            simp [hmsg, filter_terminal_pre, isTerminal]
        · -- cancellation requested, first visible at read index c < n
          have hclt : c < loc.msgEnd - loc.msgStart + 1 :=
            hc c loc (by rw [hcp]) rfl hse hsz
          rcases hxa : exnAt with _ | pr
          · -- no exception: the loop stops with the cancellation notice
            have hst := runLoopAux_cancel outcomes (cancelFlag (some c)) none loc.msgStart
              loc.msgEnd c (loc.msgEnd - loc.msgStart + 1) 0 initSt (by omega) (by omega)
              (fun j _ hj => by simp [cancelFlag]; omega)
              (by simp [cancelFlag])
              (fun x e hxx => by cases hxx)
            rw [hst]
            simp [initSt, filter_terminal_pre, isTerminal]
          · rcases pr with ⟨x, e⟩
            by_cases hxc : x < c
            · -- the exception fires before the cancellation is seen
              have hst := runLoopAux_exn outcomes (cancelFlag (some c)) loc.msgStart loc.msgEnd
                x e (loc.msgEnd - loc.msgStart + 1) 0 initSt (by omega) (by omega)
                (fun j _ hj => by simp [cancelFlag]; omega)
              rw [hst]
              simp only [initSt]
              obtain ⟨msg, hmsg⟩ := handleCopyError_errorMsg e (hx x e (by rw [hxa]))
              simp [hmsg, filter_terminal_pre, isTerminal]
            · -- the cancellation is seen first
              have hst := runLoopAux_cancel outcomes (cancelFlag (some c)) (some (x, e))
                loc.msgStart loc.msgEnd c (loc.msgEnd - loc.msgStart + 1) 0 initSt
                (by omega) (by omega)
                (fun j _ hj => by simp [cancelFlag]; omega)
                (by simp [cancelFlag])
                (fun x' e' hxx => by
                  injection hxx with h1
                  injection h1 with h2 h3
                  omega)
              rw [hst]
              simp [initSt, filter_terminal_pre, isTerminal]

/-- C9 witness: a two-message batch with no cancellation and no failures:
exactly one terminal status (the aggregate summary). -/
theorem one_terminal_status_witness :
    ((runParsed (some { channel := "c", topicId := none, msgStart := 1, msgEnd := 2 })
        (fun _ => none) none none 7 emptyStore).edits.filter isTerminal).length = 1 := by
  exact one_terminal_status (some { channel := "c", topicId := none, msgStart := 1, msgEnd := 2 })
    (fun _ => none) none none 7 emptyStore
    (fun c loc hcc => by cases hcc)
    (fun x e loc hxx => by cases hxx)
    (fun id e hee => by cases hee)
    (fun x e hxx => by cases hxx)

/-- C9 counterexample: batch 1–2, both transfers succeed, and the
cancellation request becomes visible only at the post-loop flag read (read
index 2).  The post-loop guards then skip both the summary and the
cancellation notice: the only edit is the non-terminal progress notice, so
the requester receives zero terminal statuses, not exactly one. -/
theorem one_terminal_status_counterexample :
    (runParsed (some { channel := "c", topicId := none, msgStart := 1, msgEnd := 2 })
        (fun _ => none) (some 2) none 7 emptyStore).edits = [Edit.progress] ∧
    ((runParsed (some { channel := "c", topicId := none, msgStart := 1, msgEnd := 2 })
        (fun _ => none) (some 2) none 7 emptyStore).edits.filter isTerminal).length ≠ 1 := by
  refine ⟨rfl, by decide⟩
